import Mathlib

/-!
Verification of the sketch-to-contract generator pipeline: a shallow
embedding of the semantic analyzer (`p5.analyzer`), the metadata/trait
code generator (`trait.generator.ts`), the Solidity fragment generators
(`solidity.generator`) and the template assembler (`solidity.finalize`),
together with proofs settling the frozen claims about them.

Modelling conventions:
* JavaScript numbers are modelled as `Rat` (the analyzer and generators
  never do arithmetic on them, only equality tests and printing).
* The acorn parser is external to the repository; the parse boundary is
  modelled by giving the analyzer an `Except String Node` input: `.ok ast`
  is a successful parse, `.error e` a parse failure whose message is `e`.
* The AST (`Node`) covers the node shapes the analyzer inspects:
  literals, identifiers, member expressions with a plain (non-computed)
  property name, call expressions, variable declarators with an
  identifier id, function declarations, and an opaque `other` node for
  every remaining construct (walkable children only).  Destructuring
  declarator ids and function parameters are not modelled.
* `walkNodes` reproduces acorn-walk `simple`'s callback order: a node's
  callback fires after its children have been walked (post-order).
-/

/-- One JavaScript literal value, as stored in an acorn `Literal` node. -/
inductive LitVal where
  | num (q : Rat)
  | str (s : String)
  | bool (b : Bool)
  | null
deriving DecidableEq, Repr

/-- A source location `\x7bline, column\x7d` as recorded from `node.loc`. -/
structure SrcLoc where
  line : Nat
  column : Nat
deriving DecidableEq, Repr

/-- The scoped acorn AST.  `loc` is carried on the node kinds whose
positions the analyzer reads (`CallExpression`, `VariableDeclarator`). -/
inductive Node where
  | lit (v : LitVal)
  | ident (name : String)
  | member (obj : Node) (propName : Option String)
  | call (callee : Node) (args : List Node) (loc : Option SrcLoc)
  | varDeclr (idName : String) (init : Option Node) (loc : Option SrcLoc)
  | funcDecl (fname : String) (body : List Node)
  | other (children : List Node)
deriving Repr

mutual

/-- All nodes visited by acorn-walk `simple`, in callback order
(children first, then the node itself). -/
def walkNodes : Node → List Node
  | .lit v => [.lit v]
  | .ident n => [.ident n]
  | .member o p => walkNodes o ++ [.member o p]
  | .call c args loc => walkNodes c ++ walkList args ++ [.call c args loc]
  | .varDeclr i none loc => [.varDeclr i none loc]
  | .varDeclr i (some e) loc => walkNodes e ++ [.varDeclr i (some e) loc]
  | .funcDecl f body => walkList body ++ [.funcDecl f body]
  | .other cs => walkList cs ++ [.other cs]

/-- Walk of a list of sibling nodes, left to right. -/
def walkList : List Node → List Node
  | [] => []
  | n :: ns => walkNodes n ++ walkList ns

end

/-- `node.name`: the `name` field read off an arbitrary node — present
only on `Identifier` nodes, `undefined` (here `none`) otherwise. -/
def nameOf : Node → Option String
  | .ident n => some n
  | _ => none

/-- JavaScript string interpolation of a possibly-`undefined` name. -/
def showName : Option String → String
  | some s => s
  | none => "undefined"

/-- JavaScript truthiness of a literal value. -/
def litTruthy : LitVal → Bool
  | .num q => decide (q ≠ 0)
  | .str s => decide (s ≠ "")
  | .bool b => b
  | .null => false

/-- The three trait accessor methods recognized by the analyzer. -/
inductive TraitType where
  | asInt
  | asString
  | asFloat
deriving DecidableEq, Repr

/-- Issue severity: warnings never abort analysis. -/
inductive IssueType where
  | warning
  | error
deriving DecidableEq, Repr

/-- A collection registered from a `FormaCollection` declarator.  The
`address` field holds the literal value of the constructor's first
argument (`null` and non-literal arguments are both `none`, exactly as
`createCollection` maps them to JavaScript `null`). -/
structure Collection where
  name : String
  address : Option LitVal
  sourceLocation : Option SrcLoc
deriving DecidableEq, Repr

/-- A trait read `<obj>.metadata(<key>).<asInt|asString|asFloat>()`.
`collection` is `<obj>.name`, `undefined` (`none`) when `<obj>` is not a
plain identifier; `key` is the literal key value (`null`/non-literal
become `none`). -/
structure Trait where
  collection : Option String
  key : Option LitVal
  type : TraitType
  sourceLocation : Option SrcLoc
deriving DecidableEq, Repr

/-- A token binding recorded from `<obj>.useToken(<literal number>)`. -/
structure TokenIndex where
  collection : Option String
  tokenId : Rat
deriving DecidableEq, Repr

/-- An analysis issue. -/
structure AnalysisIssue where
  type : IssueType
  message : String
  location : Option SrcLoc
deriving DecidableEq, Repr

/-- Per-collection aggregation produced by `groupTraitsByCollection`. -/
structure TraitData where
  collection : Option String
  address : Option LitVal
  traits : List Trait
  tokenIndexes : List Rat
deriving DecidableEq, Repr

/-- The result returned by `analyze`. -/
structure AnalysisResult where
  collections : List Collection
  traits : List Trait
  data : List TraitData
  issues : List AnalysisIssue
  tokenIndexes : List TokenIndex
deriving DecidableEq, Repr

/-- The analyzer's per-instance mutable accumulators. -/
structure NFTCodeAnalyzer where
  collections : List Collection
  traits : List Trait
  issues : List AnalysisIssue
  tokenIndexes : List TokenIndex
deriving DecidableEq, Repr

/-- `this.reset()`: fresh empty accumulators. -/
def resetState : NFTCodeAnalyzer := ⟨[], [], [], []⟩

/-- `this.addIssue(issue)`: appends to the issue list. -/
def addIssue (st : NFTCodeAnalyzer) (i : AnalysisIssue) : NFTCodeAnalyzer :=
  { st with issues := st.issues ++ [i] }

/-- `firstArg && firstArg.type === 'Literal' ? firstArg.value : null` —
the literal value of the first argument, with literal `null`, a missing
argument and a non-literal argument all mapped to JavaScript `null`. -/
def litArgValue : List Node → Option LitVal
  | .lit v :: _ =>
    match v with
    | .null => none
    | v => some v
  | _ => none

/-- `isFormaCollectionCall` + `createCollection` (without the issue):
the Collection registered by a variable declarator, when its initializer
is a call whose callee name is `FormaCollection`. -/
def collectionOf : Node → Option Collection
  | .varDeclr id (some (.call (.ident "FormaCollection") args _)) dloc =>
    some { name := id, address := litArgValue args, sourceLocation := dloc }
  | _ => none

/-- The warning `createCollection` records when the address is `null`. -/
def missingAddressWarning (c : Collection) : AnalysisIssue :=
  ⟨.warning, "Collection \x27" ++ c.name ++ "\x27 is missing an address", c.sourceLocation⟩

/-- Pass 1 step: register a collection (recording the missing-address
warning first, as `createCollection` does). -/
def collectionStep (st : NFTCodeAnalyzer) (n : Node) : NFTCodeAnalyzer :=
  match collectionOf n with
  | none => st
  | some c =>
    let st := if c.address = none then addIssue st (missingAddressWarning c) else st
    { st with collections := st.collections ++ [c] }

/-- `extractCollections`: walk all `VariableDeclarator` nodes. -/
def extractCollectionsSt (ast : Node) (st : NFTCodeAnalyzer) : NFTCodeAnalyzer :=
  (walkNodes ast).foldl collectionStep st

/-- The trait type named by a member property, when it is one of the
three accessors checked by `isTraitTypeCall`. -/
def traitTypeOf? (p : String) : Option TraitType :=
  if p = "asInt" then some .asInt
  else if p = "asString" then some .asString
  else if p = "asFloat" then some .asFloat
  else none

/-- `extractTrait`: a call `<inner>.<asInt|asString|asFloat>()` whose
inner expression is a call `<obj>.metadata(<arg>)`. -/
def extractTrait : Node → Option Trait
  | .call (.member inner (some p)) _ loc =>
    match traitTypeOf? p with
    | none => none
    | some tt =>
      match inner with
      | .call (.member obj (some "metadata")) margs _ =>
        some { collection := nameOf obj, key := litArgValue margs, type := tt, sourceLocation := loc }
      | _ => none
  | _ => none

/-- `isDuplicateTrait`: an exact (collection, key, type) match already
recorded. -/
def isDuplicateTrait (traits : List Trait) (t : Trait) : Bool :=
  traits.any fun x =>
    decide (x.collection = t.collection) && decide (x.key = t.key) && decide (x.type = t.type)

/-- The warning `extractTrait` records when the key is `null`. -/
def missingKeyWarning (t : Trait) : AnalysisIssue :=
  ⟨.warning, "Trait in collection \x27" ++ showName t.collection ++ "\x27 is missing a key",
    t.sourceLocation⟩

/-- Pass 2 step: record the missing-key warning (which `extractTrait`
emits even for duplicates), then push the trait unless duplicate. -/
def traitStep (st : NFTCodeAnalyzer) (n : Node) : NFTCodeAnalyzer :=
  match extractTrait n with
  | none => st
  | some t =>
    let st := if t.key = none then addIssue st (missingKeyWarning t) else st
    if isDuplicateTrait st.traits t then st else { st with traits := st.traits ++ [t] }

/-- `extractTraits`: walk all `CallExpression` nodes. -/
def extractTraitsSt (ast : Node) (st : NFTCodeAnalyzer) : NFTCodeAnalyzer :=
  (walkNodes ast).foldl traitStep st

/-- `extractTokenId`: only a direct numeric literal yields a token id. -/
def extractTokenId : Node → Option Rat
  | .lit (.num q) => some q
  | _ => none

/-- `isUseTokenCall`'s shape test, returning the pieces
`extractTokenIndex` reads: the callee object's name, the first argument
and the call's location. -/
def useTokenParts : Node → Option (Option String × Node × Option SrcLoc)
  | .call (.member obj (some "useToken")) (a :: _) loc => some (nameOf obj, a, loc)
  | _ => none

/-- The warning for a `useToken` call on an unregistered collection. -/
def unknownCollWarning (cname : Option String) (loc : Option SrcLoc) : AnalysisIssue :=
  ⟨.warning, "useToken references non-existent collection \x27" ++ showName cname ++ "\x27", loc⟩

/-- The warning for a `useToken` call whose argument is not a numeric
literal. -/
def nonNumericWarning (cname : Option String) (loc : Option SrcLoc) : AnalysisIssue :=
  ⟨.warning, "useToken for collection \x27" ++ showName cname ++ "\x27 has non-numeric token ID",
    loc⟩

/-- Pass 3 step, covering `isUseTokenCall` + `extractTokenIndex`: for a
call `<obj>.useToken(<arg>, ...)` record the unknown-collection warning,
then either the non-numeric warning (dropping the call) or the
TokenIndex. -/
def tokenStep (st : NFTCodeAnalyzer) (n : Node) : NFTCodeAnalyzer :=
  match useTokenParts n with
  | none => st
  | some (cname, a, loc) =>
    let st :=
      if st.collections.any (fun c => decide (cname = some c.name)) then st
      else addIssue st (unknownCollWarning cname loc)
    match extractTokenId a with
    | none => addIssue st (nonNumericWarning cname loc)
    | some q => { st with tokenIndexes := st.tokenIndexes ++ [⟨cname, q⟩] }

/-- The `setup` function the analyzer uses: `walk.simple` overwrites the
variable at each `FunctionDeclaration` named `setup`, so the last one in
walk order wins. -/
def findSetup (ast : Node) : Option Node :=
  ((walkNodes ast).filterMap fun n =>
    match n with
    | .funcDecl "setup" body => some (Node.funcDecl "setup" body)
    | _ => none).getLast?

/-- `extractTokenUsages`: scan `useToken` calls inside `setup` only. -/
def extractTokenUsagesSt (ast : Node) (st : NFTCodeAnalyzer) : NFTCodeAnalyzer :=
  match findSetup ast with
  | none => st
  | some f => (walkNodes f).foldl tokenStep st

/-- Validation step for one trait. -/
def traitValidateStep (st : NFTCodeAnalyzer) (t : Trait) : NFTCodeAnalyzer :=
  if st.collections.any (fun c => decide (t.collection = some c.name)) then st
  else addIssue st ⟨.warning,
    "Trait references non-existent collection \x27" ++ showName t.collection ++ "\x27",
    t.sourceLocation⟩

/-- Validation step for one token index (no location is recorded). -/
def tokenValidateStep (st : NFTCodeAnalyzer) (ti : TokenIndex) : NFTCodeAnalyzer :=
  if st.collections.any (fun c => decide (ti.collection = some c.name)) then st
  else addIssue st ⟨.warning,
    "Token usage references non-existent collection \x27" ++ showName ti.collection ++ "\x27",
    none⟩

/-- `validateData`: warn for traits and token usages whose collection
name is not registered. -/
def validateDataSt (st : NFTCodeAnalyzer) : NFTCodeAnalyzer :=
  let st1 := st.traits.foldl traitValidateStep st
  st1.tokenIndexes.foldl tokenValidateStep st1

/-- `...?.address || null`: the address recorded for a group entry. -/
def lookupAddress (collections : List Collection) (cname : Option String) : Option LitVal :=
  match collections.find? (fun c => decide (cname = some c.name)) with
  | none => none
  | some c =>
    match c.address with
    | none => none
    | some v => if litTruthy v then some v else none

/-- First `forEach` of `groupTraitsByCollection`: insert a trait. -/
def groupInsertTrait (collections : List Collection) (m : List TraitData) (t : Trait) :
    List TraitData :=
  let m :=
    if m.any (fun d => decide (d.collection = t.collection)) then m
    else m ++ [{ collection := t.collection, address := lookupAddress collections t.collection,
                 traits := [], tokenIndexes := [] }]
  m.map fun d =>
    if decide (d.collection = t.collection) then { d with traits := d.traits ++ [t] } else d

/-- Second `forEach` of `groupTraitsByCollection`: insert a token id,
deduplicated per collection by `includes`. -/
def groupInsertToken (collections : List Collection) (m : List TraitData) (ti : TokenIndex) :
    List TraitData :=
  let m :=
    if m.any (fun d => decide (d.collection = ti.collection)) then m
    else m ++ [{ collection := ti.collection, address := lookupAddress collections ti.collection,
                 traits := [], tokenIndexes := [] }]
  m.map fun d =>
    if decide (d.collection = ti.collection) then
      (if d.tokenIndexes.contains ti.tokenId then d
       else { d with tokenIndexes := d.tokenIndexes ++ [ti.tokenId] })
    else d

/-- `groupTraitsByCollection`: map insertion order is first-appearance
order of collection names, traits first, then token usages. -/
def groupTraitsByCollection (st : NFTCodeAnalyzer) : List TraitData :=
  let m := st.traits.foldl (groupInsertTrait st.collections) []
  st.tokenIndexes.foldl (groupInsertToken st.collections) m

/-- The `AnalysisResult` view of the analyzer state. -/
def resultOf (st : NFTCodeAnalyzer) : AnalysisResult :=
  { collections := st.collections, traits := st.traits, data := groupTraitsByCollection st,
    issues := st.issues, tokenIndexes := st.tokenIndexes }

/-- `analyze(code)`: resets the instance accumulators, parses, runs the
four extraction/validation passes, and never raises past its boundary —
a parse failure is caught and converted to one error issue over the
freshly reset (empty) state.  The instance's previous accumulators are
discarded by `reset`, which is why the first component ignores `a`. -/
def NFTCodeAnalyzer.analyzeSt (_a : NFTCodeAnalyzer) (input : Except String Node) :
    NFTCodeAnalyzer × AnalysisResult :=
  match input with
  | .error e =>
    let st := addIssue resetState ⟨.error, "Analysis failed: Failed to parse code: " ++ e, none⟩
    (st, resultOf st)
  | .ok ast =>
    let st := resetState
    let st := extractCollectionsSt ast st
    let st := extractTraitsSt ast st
    let st := extractTokenUsagesSt ast st
    let st := validateDataSt st
    (st, resultOf st)

/-- `analyzeCode(code)`: a fresh analyzer instance, one `analyze` call. -/
def analyzeCode (input : Except String Node) : AnalysisResult :=
  ((NFTCodeAnalyzer.mk [] [] [] []).analyzeSt input).2

/-! ### String utilities shared by the generators

`String.prototype.replace` with a plain-string pattern replaces only the
first occurrence.  (`$`-patterns in the replacement string are not
modelled; none of the fixed replacement strings used by the generator
contains one.) -/

/-- First-occurrence replacement on character lists.  On the empty
string JavaScript still matches an empty pattern once. -/
def replaceFirstL (pat repl : List Char) : List Char → List Char
  | [] => if pat = [] then repl else []
  | c :: rest =>
    if pat.isPrefixOf (c :: rest) then repl ++ (c :: rest).drop pat.length
    else c :: replaceFirstL pat repl rest

/-- JavaScript `s.replace(pat, repl)` for a plain-string `pat`. -/
def jsReplace (s pat repl : String) : String :=
  ⟨replaceFirstL pat.data repl.data s.data⟩

/-- Number of (possibly overlapping) occurrences of `pat` in a list. -/
def countOcc (pat : List Char) : List Char → Nat
  | [] => 0
  | c :: rest => (if pat.isPrefixOf (c :: rest) then 1 else 0) + countOcc pat rest

/-- `.replace(/\\/g, '\\\\')`: double every backslash. -/
def escBackslashPass : List Char → List Char
  | [] => []
  | c :: cs => (if c = '\\' then ['\\', '\\'] else [c]) ++ escBackslashPass cs

/-- `.replace(/"/g, '\\"')`: escape every double quote. -/
def escQuotePass : List Char → List Char
  | [] => []
  | c :: cs => (if c = '"' then ['\\', '"'] else [c]) ++ escQuotePass cs

/-- `.replace(/\n/g, '\\n')`: escape every newline. -/
def escNewlinePass : List Char → List Char
  | [] => []
  | c :: cs => (if c = '\n' then ['\\', 'n'] else [c]) ++ escNewlinePass cs

/-- `_escapeString`: escape backslashes first, then double quotes, then
newlines — exactly the three global replacements of the source, in that
order. -/
def _escapeString (s : String) : String :=
  ⟨escNewlinePass (escQuotePass (escBackslashPass s.data))⟩

/-- The per-character form the three passes amount to (proved below). -/
def escChar (c : Char) : List Char :=
  if c = '\\' then ['\\', '\\']
  else if c = '"' then ['\\', '"']
  else if c = '\n' then ['\\', 'n']
  else [c]

/-- Modelled from the spec: the decoder of a standard escaped
string-literal body (the "unescaped/decoded" step of the round-trip
property; the repository itself leaves decoding to the target-language
compiler).  `\n` decodes to a newline, `\<c>` to `c`; an unescaped
double quote, a raw newline, or a dangling backslash make the body
invalid. -/
def unescChar (c : Char) : Char := if c = 'n' then '\n' else c

/-- Decoder of a literal body up to and including its closing quote. -/
def decodeBody : List Char → Option (List Char)
  | [] => none
  | [c] => if c = '"' then some [] else none
  | c :: d :: rest =>
    if c = '"' then none
    else if c = '\\' then (decodeBody rest).map (fun l => unescChar d :: l)
    else if c = '\n' then none
    else (decodeBody (d :: rest)).map (fun l => c :: l)

/-- Modelled from the spec: reading back a full quoted literal. -/
def decodeStringLiteral (s : String) : Option String :=
  match s.data with
  | '"' :: rest => (decodeBody rest).map fun l => ⟨l⟩
  | _ => none

/-- `.replace(/\s+/g, '_')`: each maximal whitespace run becomes one
underscore; `prevWs` records whether the previous character was part of
a run already rewritten. -/
def collapseWsAux : Bool → List Char → List Char
  | _, [] => []
  | prevWs, c :: cs =>
    if c.isWhitespace then
      (if prevWs then [] else ['_']) ++ collapseWsAux true cs
    else c :: collapseWsAux false cs

/-- JavaScript `trim()`: strip whitespace from both ends. -/
def jsTrimL (cs : List Char) : List Char :=
  ((cs.dropWhile Char.isWhitespace).reverse.dropWhile Char.isWhitespace).reverse

/-- JavaScript `toLowerCase()` (ASCII case mapping). -/
def jsToLower (s : String) : String := ⟨s.data.map Char.toLower⟩

/-- `_capitalize`: `text.charAt(0).toUpperCase() + text.slice(1)`. -/
def _capitalize (s : String) : String :=
  match s.data with
  | [] => ""
  | c :: cs => ⟨c.toUpper :: cs⟩

/-- `_formatName`: trim, lowercase, collapse whitespace runs to single
underscores, then capitalize the first character. -/
def _formatName (name : String) : String :=
  _capitalize ⟨collapseWsAux false ((jsTrimL name.data).map Char.toLower)⟩

/-- Fractional decimal digits of `0 ≤ q < 1` (fuel-bounded). -/
def fracDigits : Nat → Rat → List Char
  | 0, _ => []
  | fuel + 1, q =>
    if q = 0 then []
    else
      let q10 := q * 10
      let d := q10.floor
      Char.ofNat (48 + d.toNat) :: fracDigits fuel (q10 - d)

/-- JavaScript `String(x)` on a number: integers render as decimal
digits (with a leading `-` when negative); other rationals render with
up to 20 fractional decimal digits.  (JavaScript's shortest-roundtrip
double formatting is not modelled beyond this; no claim depends on the
rendering of a non-integral number.) -/
def jsNumToString (q : Rat) : String :=
  if q.den = 1 then toString q.num
  else
    (if q < 0 then "-" else "") ++ toString |q|.floor ++ "." ++ ⟨fracDigits 20 (|q| - |q|.floor)⟩

/-- Decimal digit value. -/
def digitVal (c : Char) : Option Nat :=
  if '0' ≤ c ∧ c ≤ '9' then some (c.toNat - 48) else none

/-- Hexadecimal digit value. -/
def hexDigitVal (c : Char) : Option Nat :=
  if '0' ≤ c ∧ c ≤ '9' then some (c.toNat - 48)
  else if 'a' ≤ c ∧ c ≤ 'f' then some (c.toNat - 87)
  else if 'A' ≤ c ∧ c ≤ 'F' then some (c.toNat - 55)
  else none

/-- Longest leading run of digits (by the given digit reader). -/
def takeDigitsWith (f : Char → Option Nat) : List Char → List Nat × List Char
  | [] => ([], [])
  | c :: cs =>
    match f c with
    | some d =>
      let r := takeDigitsWith f cs
      (d :: r.1, r.2)
    | none => ([], c :: cs)

/-- Digit list to number in the given base. -/
def digitsToNat (base : Nat) (ds : List Nat) : Nat :=
  ds.foldl (fun a d => a * base + d) 0

/-- Optional leading sign. -/
def splitSign : List Char → Bool × List Char
  | '-' :: r => (true, r)
  | '+' :: r => (false, r)
  | r => (false, r)

/-- JavaScript `parseInt(s)` with no radix argument: skip leading
whitespace, optional sign, `0x`/`0X` hexadecimal prefix or decimal
digits, ignoring everything after the leading numeric token.  `none`
models `NaN`. -/
def jsParseInt (s : String) : Option Int :=
  let cs := (s.data).dropWhile Char.isWhitespace
  let (neg, cs) := splitSign cs
  let mag : Option Nat :=
    match cs with
    | '0' :: x :: rest =>
      if x = 'x' ∨ x = 'X' then
        let ds := (takeDigitsWith hexDigitVal rest).1
        if ds = [] then none else some (digitsToNat 16 ds)
      else
        let ds := (takeDigitsWith digitVal ('0' :: x :: rest)).1
        some (digitsToNat 10 ds)
    | _ =>
      let ds := (takeDigitsWith digitVal cs).1
      if ds = [] then none else some (digitsToNat 10 ds)
  mag.map fun m => if neg then -(m : Int) else (m : Int)

/-- JavaScript `parseFloat(s)`: skip leading whitespace, optional sign,
`digits[.digits][e[±]digits]`; `none` models `NaN`.  (The `Infinity`
token is not modelled; no value in scope parses to it.) -/
def jsParseFloat (s : String) : Option Rat :=
  let cs := (s.data).dropWhile Char.isWhitespace
  let (neg, cs) := splitSign cs
  let (ip, cs) := takeDigitsWith digitVal cs
  let (fp, cs) :=
    match cs with
    | '.' :: r => takeDigitsWith digitVal r
    | _ => ([], cs)
  if ip = [] ∧ fp = [] then none
  else
    let mant : Rat :=
      (digitsToNat 10 ip : Rat) + (digitsToNat 10 fp : Rat) / ((10 : Rat) ^ fp.length)
    let expv : Int :=
      match cs with
      | e :: r =>
        if e = 'e' ∨ e = 'E' then
          let (eneg, r2) := splitSign r
          let eds := (takeDigitsWith digitVal r2).1
          if eds = [] then 0
          else if eneg then -(digitsToNat 10 eds : Int) else (digitsToNat 10 eds : Int)
        else 0
      | [] => 0
    some ((if neg then -mant else mant) * (10 : Rat) ^ expv)

/-! ### Characterizations of the analyzer passes -/

/-- The TokenIndex a node yields during pass 3, if any. -/
def tokenIndexFromCall (n : Node) : Option TokenIndex :=
  match useTokenParts n with
  | none => none
  | some (cname, a, _) =>
    match extractTokenId a with
    | none => none
    | some q => some ⟨cname, q⟩

/-- The issues a node contributes during pass 3, given the registered
collections. -/
def tokenIssuesOf (collections : List Collection) (n : Node) : List AnalysisIssue :=
  match useTokenParts n with
  | none => []
  | some (cname, a, loc) =>
    (if collections.any (fun c => decide (cname = some c.name)) then []
     else [unknownCollWarning cname loc]) ++
    (match extractTokenId a with
     | none => [nonNumericWarning cname loc]
     | some _ => [])

/-- The issues a node contributes during pass 1. -/
def collIssuesOf (n : Node) : List AnalysisIssue :=
  match collectionOf n with
  | none => []
  | some c => if c.address = none then [missingAddressWarning c] else []

/-- The issues a recognized trait contributes during pass 2. -/
def keyIssueOf (t : Trait) : List AnalysisIssue :=
  if t.key = none then [missingKeyWarning t] else []

/-- The validation issues of one trait. -/
def traitValidIssue (collections : List Collection) (t : Trait) : List AnalysisIssue :=
  if collections.any (fun c => decide (t.collection = some c.name)) then []
  else [⟨.warning,
    "Trait references non-existent collection \x27" ++ showName t.collection ++ "\x27",
    t.sourceLocation⟩]

/-- The validation issues of one token index. -/
def tokenValidIssue (collections : List Collection) (ti : TokenIndex) : List AnalysisIssue :=
  if collections.any (fun c => decide (ti.collection = some c.name)) then []
  else [⟨.warning,
    "Token usage references non-existent collection \x27" ++ showName ti.collection ++ "\x27",
    none⟩]

/-- The accumulation discipline of `extractTraits`: push each incoming
trait unless an exact (collection, key, type) match is present. -/
def dedupAppend : List Trait → List Trait → List Trait
  | acc, [] => acc
  | acc, t :: ts => dedupAppend (if isDuplicateTrait acc t then acc else acc ++ [t]) ts

/-- The nodes pass 3 scans: the walk of the setup function, if any. -/
def setupWalk (ast : Node) : List Node :=
  match findSetup ast with
  | none => []
  | some f => walkNodes f

/-! ### `trait.generator.ts`: metadata resolution and JS code emission

The network read (`fetchTokenMetadata`, via ethers + axios) is the only
external interaction of `generateFormaCollectionCode`; it is modelled by
passing in the `MetadataResult` it would return.  `fetchTokenMetadata`
itself catches every failure and returns a `success:false` result, so a
total parameter is faithful.  (A malformed address string would make the
`ethers.Contract` constructor throw inside the same `try`, which also
lands in a caught-error result of the same shape; only its message
differs, and no claim depends on it.) -/

/-- The trait accessor's name, as interpolated into generated code. -/
def traitTypeName : TraitType → String
  | .asInt => "asInt"
  | .asString => "asString"
  | .asFloat => "asFloat"

/-- The (collection, key, type) triple a duplicate check compares. -/
def tripleOf (t : Trait) : Option String × Option LitVal × TraitType :=
  (t.collection, t.key, t.type)

/-- JavaScript `String(v)` on a literal value. -/
def litToString : LitVal → String
  | .num q => jsNumToString q
  | .str s => s
  | .bool b => if b then "true" else "false"
  | .null => "null"

/-- Interpolation of a possibly-`undefined`/`null` literal (only the
defined case is reachable where this is used). -/
def litOptToString : Option LitVal → String
  | some v => litToString v
  | none => "null"

/-- Truthiness of a possibly-absent literal (`null` is falsy). -/
def litTruthyOpt : Option LitVal → Bool
  | some v => litTruthy v
  | none => false

/-- Truthiness of a possibly-absent string. -/
def strTruthy : Option String → Bool
  | some s => decide (s ≠ "")
  | none => false

/-- `x || d` for a possibly-absent string with a default. -/
def jsOrStr (x : Option String) (d : String) : String :=
  match x with
  | some s => if s ≠ "" then s else d
  | none => d

/-- `trait.key || ''`, coerced to the string it is subsequently used as
(record key, or text in a template interpolation). -/
def litKeyStr (key : Option LitVal) : String :=
  match key with
  | some v => if litTruthy v then litToString v else ""
  | none => ""

/-- JSON-like metadata values.  JavaScript `undefined` is represented
as an absent `Option Json`, never as a `Json` value. -/
inductive Json where
  | str (s : String)
  | num (q : Rat)
  | bool (b : Bool)
  | null
  | arr (xs : List Json)
  | obj (fields : List (String × Json))
deriving Repr

/-- JavaScript truthiness of a JSON value (arrays and objects are
always truthy). -/
def jsonTruthy : Json → Bool
  | .str s => decide (s ≠ "")
  | .num q => decide (q ≠ 0)
  | .bool b => b
  | .null => false
  | .arr _ => true
  | .obj _ => true

/-- Property access `m.k`: defined only on objects, `undefined`
elsewhere. -/
def getField (m : Json) (k : String) : Option Json :=
  match m with
  | .obj fs => (fs.find? (fun p => decide (p.1 = k))).map (·.2)
  | _ => none

/-- `x || y` on possibly-undefined values. -/
def jsOr (x y : Option Json) : Option Json :=
  match x with
  | some v => if jsonTruthy v then some v else y
  | none => y

mutual

/-- JavaScript `String(value)` on metadata values. -/
def jsToString : Json → String
  | .str s => s
  | .num q => jsNumToString q
  | .bool b => if b then "true" else "false"
  | .null => "null"
  | .arr xs => String.intercalate "," (arrayElems xs)
  | .obj _ => "[object Object]"

/-- `Array.prototype.toString` element conversion: `null` renders
empty, every other element via `String(·)`. -/
def arrayElems : List Json → List String
  | [] => []
  | .null :: xs => "" :: arrayElems xs
  | x :: xs => jsToString x :: arrayElems xs

end

/-- A JavaScript value produced by trait formatting: a string or a
number. -/
inductive JVal where
  | s (v : String)
  | n (v : Rat)
deriving DecidableEq, Repr

/-- `String(value)` on a formatted value. -/
def jvalToString : JVal → String
  | .s v => v
  | .n v => jsNumToString v

/-- `MetadataSourceType`. -/
inductive MetadataSourceType where
  | forma
  | erc721
  | opensea
  | unknown
deriving DecidableEq, Repr

/-- The source type's name, as interpolated into generated code. -/
def sourceTypeName : MetadataSourceType → String
  | .forma => "forma"
  | .erc721 => "erc721"
  | .opensea => "opensea"
  | .unknown => "unknown"

/-- `MetadataResult`. -/
structure MetadataResult where
  metadata : Option Json
  sourceType : MetadataSourceType
  source : Option String
  success : Bool
  error : Option String

/-- `TraitValue`. -/
structure TraitValue where
  original : Option Json
  formatted : JVal
  traitType : TraitType

/-- `CollectionCodeResult`. -/
structure CollectionCodeResult where
  collectionName : Option String
  address : Option LitVal
  code : String
  metadataSource : MetadataSourceType
  traitValues : List (String × TraitValue)
  metadata : Option Json
  tokenId : Rat
  success : Bool
  error : Option String

/-- `getDefaultValue`: the type-appropriate zero value. -/
def getDefaultValue : TraitType → JVal
  | .asString => .s ""
  | .asInt => .n 0
  | .asFloat => .n 0

/-- `formatValue`: `String(value)` / `parseInt(value) || 0` /
`parseFloat(value) || 0.0`.  `parseInt`/`parseFloat` coerce their
argument to a string first; `|| 0` maps both `NaN` and a parsed `0` to
`0`, which `getD 0` reproduces.  (The `default` branch of the source's
switch is unreachable: `TraitType` is closed.) -/
def formatValue (value : Json) (traitType : TraitType) : JVal :=
  match traitType with
  | .asString => .s (jsToString value)
  | .asInt => .n (((jsParseInt (jsToString value)).getD 0 : Int) : Rat)
  | .asFloat => .n ((jsParseFloat (jsToString value)).getD 0)

/-- Record assignment `values[k] = v`: string-keyed, insertion order
kept, an existing key updated in place. -/
def recSet (m : List (String × Option Json)) (k : String) (v : Option Json) :
    List (String × Option Json) :=
  if m.any (fun p => decide (p.1 = k)) then
    m.map fun p => if decide (p.1 = k) then (k, v) else p
  else m ++ [(k, v)]

/-- Record lookup `values[k]` (a stored `undefined` and a missing key
are indistinguishable to reads, as in JavaScript). -/
def recGet (m : List (String × Option Json)) (k : String) : Option Json :=
  match m.find? (fun p => decide (p.1 = k)) with
  | some p => p.2
  | none => none

/-- One attribute of the OpenSea array format:
`\x7btrait_type|name, value\x7d`; a falsy/absent name skips the entry. -/
def attrStep (values : List (String × Option Json)) (a : Json) :
    List (String × Option Json) :=
  match jsOr (getField a "trait_type") (getField a "name") with
  | some v =>
    if jsonTruthy v then recSet values (jsToString v) (getField a "value") else values
  | none => values

/-- The top-level metadata keys never treated as traits. -/
def traitDenylist : List String :=
  ["name", "description", "image", "external_url", "animation_url"]

/-- `extractTraitValues`: prefer `attributes`/`traits` as an array of
pairs, else as a flat object; if nothing yielded any values, fall back
to all top-level keys outside the denylist. -/
def extractTraitValues (metadata : Json) : List (String × Option Json) :=
  if jsonTruthy metadata = false then []
  else
    let attrs : Json :=
      match jsOr (getField metadata "attributes") (getField metadata "traits") with
      | some v => if jsonTruthy v then v else .arr []
      | none => .arr []
    let values : List (String × Option Json) :=
      match attrs with
      | .arr xs => xs.foldl attrStep []
      | .obj fs => fs.foldl (fun vs p => recSet vs p.1 (some p.2)) []
      | _ => []
    if values.length = 0 then
      match metadata with
      | .obj fs =>
        fs.foldl (fun vs p =>
          if p.1 ∈ traitDenylist then vs else recSet vs p.1 (some p.2)) []
      | _ => []
    else values

/-- Trait-value record assignment (same JS object semantics). -/
def tvSet (m : List (String × TraitValue)) (k : String) (v : TraitValue) :
    List (String × TraitValue) :=
  if m.any (fun p => decide (p.1 = k)) then
    m.map fun p => if decide (p.1 = k) then (k, v) else p
  else m ++ [(k, v)]

/-- Trait-value record lookup. -/
def tvGet (m : List (String × TraitValue)) (k : String) : Option TraitValue :=
  (m.find? (fun p => decide (p.1 = k))).map (·.2)

/-- The per-trait loop of `generateFormaCollectionCode`'s success path:
default when the key is missing from the extracted map, else coerce. -/
def buildTraitValues (extractedValues : List (String × Option Json)) (traits : List Trait) :
    List (String × TraitValue) :=
  traits.foldl
    (fun m t =>
      let key := litKeyStr t.key
      let formattedValue : JVal :=
        match recGet extractedValues key with
        | none => getDefaultValue t.type
        | some v => formatValue v t.type
      tvSet m key ⟨recGet extractedValues key, formattedValue, t.type⟩)
    []

/-- `.replace(/'/g, "\\'")`. -/
def escSingleQuotesL : List Char → List Char
  | [] => []
  | c :: cs => (if c = '\x27' then ['\\', '\x27'] else [c]) ++ escSingleQuotesL cs

/-- String form of the single-quote escape. -/
def escSingleQuotes (s : String) : String := ⟨escSingleQuotesL s.data⟩

/-- One trait block of `generateCode`'s loop.  For `asString` the source
quotes `String(value)` with single quotes escaped (its two branches only
differ by an identity `String(·)` on strings); otherwise it interpolates
`String(value)` bare. -/
def traitBlock (traitValues : List (String × TraitValue)) (t : Trait) : String :=
  let traitKey := litKeyStr t.key
  let value : JVal :=
    match tvGet traitValues traitKey with
    | some tv => tv.formatted
    | none => getDefaultValue t.type
  let formattedValue : String :=
    match t.type with
    | .asString => "\x27" ++ escSingleQuotes (jvalToString value) ++ "\x27"
    | _ => jvalToString value
  "    \"" ++ traitKey ++ "\": \x7b\n" ++
  "      " ++ traitTypeName t.type ++ "() \x7b\n" ++
  "        return " ++ formattedValue ++ ";\n" ++
  "      \x7d\n" ++
  "    \x7d,\n"

/-- `generateCode(collectionName, traits, traitValues, metadataSource)`. -/
def generateCode (collectionName : Option String) (traits : List Trait)
    (traitValues : List (String × TraitValue)) (metadataSource : MetadataSourceType) : String :=
  "const " ++ showName collectionName ++ " = \x7b\n" ++
  "  // Metadata source: " ++ sourceTypeName metadataSource ++ "\n" ++
  "  traits: \x7b\n" ++
  String.join (traits.map (traitBlock traitValues)) ++
  "  \x7d,\n" ++
  "  metadata(key) \x7b\n" ++
  "    return this.traits[key];\n" ++
  "  \x7d,\n" ++
  "  useToken(tokenId) \x7b\n" ++
  "    console.log(\x27Using token\x27, tokenId);\n" ++
  "    return this;\n" ++
  "  \x7d\n" ++
  "\x7d;\n"

/-- `generateFormaCollectionCode(collection)` with the network read
modelled by the `MetadataResult` parameter. -/
def generateFormaCollectionCode (fetch : MetadataResult) (collection : TraitData) :
    CollectionCodeResult :=
  let tokenId : Rat :=
    match collection.tokenIndexes with
    | t :: _ => t
    | [] => 1
  let (traitValues, rawMetadata, metadataSource, error) :
      List (String × TraitValue) × Option Json × MetadataSourceType × Option String :=
    if litTruthyOpt collection.address then
      if fetch.success &&
          (match fetch.metadata with
           | some m => jsonTruthy m
           | none => false) then
        let extractedValues := extractTraitValues (fetch.metadata.getD .null)
        (buildTraitValues extractedValues collection.traits, fetch.metadata,
          fetch.sourceType, none)
      else
        ([], none, .unknown, some (jsOrStr fetch.error "Unknown error retrieving metadata"))
    else ([], none, .unknown, some "Collection has no address")
  { collectionName := collection.collection,
    address := if litTruthyOpt collection.address then collection.address else none,
    code := generateCode collection.collection collection.traits traitValues metadataSource,
    metadataSource := metadataSource,
    traitValues := traitValues,
    metadata := rawMetadata,
    tokenId := tokenId,
    success := !(strTruthy error),
    error := error }

/-! ### `solidity.generator`: the `NFTContractGenerator` fragment
generators, and `solidity.finalize`'s `generateSolidityContract`. -/

/-- `templates.collectionAddress`. -/
def collectionAddressTemplate : String := "address private constant %COLLECTION% = %ADDRESS%;"

/-- `templates.collectionIndex`. -/
def collectionIndexTemplate : String := "uint256 private constant %COLLECTION%_INDEX = %INDEX%;"

/-- `templates.p5CodeChunk`. -/
def p5CodeChunkTemplate : String := "string private constant CHUNK_%INDEX% = \"%DATA%\";"

/-- `templates.tokenIdMapping`. -/
def tokenIdMappingTemplate : String := "uint256 %TOKEN_ID% = _tokenIds[%COLLECTION%_INDEX];"

/-- `templates.functionParameter`. -/
def functionParameterTemplate : String := "uint256 %TOKEN_ID%"

/-- `templates.ownershipCheck`. -/
def ownershipCheckTemplate : String :=
  "require(IERC721(%COLLECTION%).ownerOf(%TOKEN_ID%) == _msgSender(), \"Not the owner of required %COLLECTION_NAME%\");"

/-- `templates.traitRegistration`. -/
def traitRegistrationTemplate : String :=
  "_traitRegistry[%COLLECTION%_INDEX].push(TraitRegistry(\"%TYPE%\", \"%KEY%\"));"

/-- `templates.traitSizeSet`. -/
def traitSizeSetTemplate : String := "_traitRegistrySize[%COLLECTION%_INDEX] = %SIZE%;"

/-- `_filterValidCollections`: keep collections with a truthy address. -/
def _filterValidCollections (collections : List Collection) : List Collection :=
  collections.filter fun c => litTruthyOpt c.address

/-- `_mapTraitTypeToSolidity` (the `default` branch is unreachable:
`TraitType` is closed). -/
def _mapTraitTypeToSolidity : TraitType → String
  | .asInt => "asInt"
  | .asString => "asString"
  | .asFloat => "asFloat"

/-- `generateP5Storage(chunks)`: one escaped chunk constant per chunk,
then the chunk-count constant. -/
def generateP5Storage (chunks : List String) : String :=
  String.intercalate "\n" (chunks.mapIdx fun index chunk =>
    jsReplace (jsReplace p5CodeChunkTemplate "%INDEX%" (toString index)) "%DATA%"
      (_escapeString chunk)) ++
  jsReplace "\n\nuint256 private constant CHUNK_COUNT = %COUNT%;" "%COUNT%"
    (toString chunks.length)

/-- `generateP5Ls(chunks)`: comma-joined chunk identifiers. -/
def generateP5Ls (chunks : List String) : String :=
  String.join ((List.range chunks.length).map fun i =>
    "CHUNK_" ++ toString i ++ (if i = chunks.length - 1 then "" else ", "))

/-- `generateCollectionAddresses`. -/
def generateCollectionAddresses (collections : List Collection) : String :=
  String.intercalate "\n" ((_filterValidCollections collections).map fun c =>
    jsReplace (jsReplace collectionAddressTemplate "%COLLECTION%" c.name) "%ADDRESS%"
      (litOptToString c.address))

/-- `generateCollectionIndexes`. -/
def generateCollectionIndexes (collections : List Collection) : String :=
  String.intercalate "\n" ((_filterValidCollections collections).mapIdx fun index c =>
    jsReplace (jsReplace collectionIndexTemplate "%COLLECTION%" c.name) "%INDEX%"
      (toString index))

/-- `generateSolidityJsField`: note — no address filtering. -/
def generateSolidityJsField (collections : List Collection) : String :=
  String.intercalate "\n" (collections.map fun c =>
    "string memory " ++ c.name ++ "_jsField = generateCollectionTraitJS(\"" ++ c.name ++
      "\", " ++ c.name ++ ", " ++ c.name ++ "_INDEX, tokenId_" ++ _formatName c.name ++ ");")

/-- `generateMetadataExtraction` (address-filtered). -/
def generateMetadataExtraction (collections : List Collection) : String :=
  String.intercalate "\n" ((_filterValidCollections collections).map fun c =>
    "string memory metadata_" ++ _formatName c.name ++ " = " ++ c.name ++
      ".getTokenMetadata(tokenId_" ++ _formatName c.name ++ ");")

/-- `generateFullMetadataSettings`.  (A `TraitData` with an `undefined`
collection name would make the source's `.toLowerCase()` throw; it is
rendered as "undefined" here, and arises only from a metadata read on a
non-identifier receiver.) -/
def generateFullMetadataSettings (traitData : List TraitData) : String :=
  "string memory tokenMetadata = \"\x7b\x7d\";" ++
  "\ntokenMetadata = tokenMetadata" ++
  String.join (traitData.map fun data =>
    "\n    .setTokenAttribute(\"" ++ jsToLower (showName data.collection) ++
      "_metadata\", metadata_" ++ _formatName (showName data.collection) ++ ")") ++
  "\n    .setTokenAttribute(\"canvas\", canvasBase64)" ++ ";"

/-- `generateTokenIdMapping` (address-filtered). -/
def generateTokenIdMapping (collections : List Collection) : String :=
  String.intercalate "\n" ((_filterValidCollections collections).map fun c =>
    jsReplace (jsReplace tokenIdMappingTemplate "%TOKEN_ID%" ("tokenId_" ++ _formatName c.name))
      "%COLLECTION%" c.name)

/-- `generateOwnershipChecks` (address-filtered). -/
def generateOwnershipChecks (collections : List Collection) : String :=
  String.intercalate "\n" ((_filterValidCollections collections).map fun c =>
    jsReplace (jsReplace (jsReplace ownershipCheckTemplate "%COLLECTION%" c.name)
      "%TOKEN_ID%" ("tokenId_" ++ _formatName c.name)) "%COLLECTION_NAME%" (_formatName c.name))

/-- `generateFunctionParameters` (address-filtered; no separator after
the final element). -/
def generateFunctionParameters (collections : List Collection) : String :=
  let validCollections := _filterValidCollections collections
  String.join (validCollections.mapIdx fun index c =>
    jsReplace functionParameterTemplate "%TOKEN_ID%" ("tokenId_" ++ _formatName c.name) ++
      (if index = validCollections.length - 1 then "" else ", "))

/-- `generateTraitRegistration`: all registration statements first, then
one size statement per collection. -/
def generateTraitRegistration (traitData : List TraitData) : String :=
  let registrationCode := traitData.flatMap fun data =>
    data.traits.map fun trait =>
      jsReplace (jsReplace (jsReplace traitRegistrationTemplate
        "%COLLECTION%" (showName data.collection))
        "%TYPE%" (_mapTraitTypeToSolidity trait.type))
        "%KEY%" (litKeyStr trait.key)
  let sizeSetCode := traitData.map fun data =>
    jsReplace (jsReplace traitSizeSetTemplate "%COLLECTION%" (showName data.collection))
      "%SIZE%" (toString data.traits.length)
  String.intercalate "\n" (registrationCode ++ sizeSetCode)

/-- `generateSolidityBase64EncodedField`: note — no address filtering. -/
def generateSolidityBase64EncodedField (collections : List Collection) : String :=
  let jsFields := String.intercalate ", " (collections.map fun c => c.name ++ "_jsField")
  "\n        string memory allTraits = string(abi.encodePacked(" ++ jsFields ++ "));\n    "

/-- `generateMetadataCementing`. -/
def generateMetadataCementing : String := "_cementTokenMetadata(newTokenId);"

/-- `generateSolidityContract(code, templateSolidity)`: thirteen chained
first-occurrence `.replace` calls over the base template.  The `process`
and `compress` collaborators that chunk the sketch source are external
to the specified core (spec §1/§6); the chunk list they produce is the
`p5slot` parameter. -/
def generateSolidityContract (code : Except String Node) (templateSolidity : String)
    (p5slot : List String) : String :=
  let analysis := analyzeCode code
  jsReplace (jsReplace (jsReplace (jsReplace (jsReplace (jsReplace (jsReplace (jsReplace
    (jsReplace (jsReplace (jsReplace (jsReplace (jsReplace templateSolidity
      "%CONTRACT_NAME%" "NFTCollection")
      "%COLLECTION_CONTRACTS%" (generateCollectionAddresses analysis.collections))
      "%COLLECTION_CODE%" (generateCollectionIndexes analysis.collections))
      "%CHUNKS%" (generateP5Storage p5slot))
      "%COLLECTION_TRAITS%" (generateTraitRegistration analysis.data))
      "%ID_MAPPING%" (generateTokenIdMapping analysis.collections))
      "%REQUIRED_MINT_CODE%" (generateOwnershipChecks analysis.collections))
      "%METADATA_EXP%" (generateMetadataExtraction analysis.collections))
      "%TRAIT_JS%" (generateSolidityJsField analysis.collections))
      "%TRAIT_BASE64%" (generateSolidityBase64EncodedField analysis.collections))
      "%P5_LS%" (generateP5Ls p5slot))
      "%ATTRIBUTES%" (generateFullMetadataSettings analysis.data))
      "%CEMENT_METADATA_CODE%" generateMetadataCementing

/-- The thirteen (placeholder, fragment) pairs of the assembly, in the
order the source applies them. -/
def substitutionPairs (code : Except String Node) (p5slot : List String) :
    List (String × String) :=
  let analysis := analyzeCode code
  [("%CONTRACT_NAME%", "NFTCollection"),
   ("%COLLECTION_CONTRACTS%", generateCollectionAddresses analysis.collections),
   ("%COLLECTION_CODE%", generateCollectionIndexes analysis.collections),
   ("%CHUNKS%", generateP5Storage p5slot),
   ("%COLLECTION_TRAITS%", generateTraitRegistration analysis.data),
   ("%ID_MAPPING%", generateTokenIdMapping analysis.collections),
   ("%REQUIRED_MINT_CODE%", generateOwnershipChecks analysis.collections),
   ("%METADATA_EXP%", generateMetadataExtraction analysis.collections),
   ("%TRAIT_JS%", generateSolidityJsField analysis.collections),
   ("%TRAIT_BASE64%", generateSolidityBase64EncodedField analysis.collections),
   ("%P5_LS%", generateP5Ls p5slot),
   ("%ATTRIBUTES%", generateFullMetadataSettings analysis.data),
   ("%CEMENT_METADATA_CODE%", generateMetadataCementing)]

/-- Modelled from the spec: "implement as one linear scan producing
output while matching placeholder tokens" — a single left-to-right scan;
at each position the first pair whose (non-empty) placeholder matches is
substituted, and the scan resumes after the matched placeholder without
rescanning the emitted fragment.  `fuel` bounds the recursion;
`singlePassSubstitute` supplies the template length, which suffices
because every step consumes at least one character. -/
def singlePassAux (pairs : List (List Char × List Char)) : Nat → List Char → List Char
  | 0, l => l
  | _ + 1, [] => []
  | fuel + 1, c :: rest =>
    match pairs.find? (fun p => !p.1.isEmpty && p.1.isPrefixOf (c :: rest)) with
    | some p => p.2 ++ singlePassAux pairs fuel ((c :: rest).drop p.1.length)
    | none => c :: singlePassAux pairs fuel rest

/-- Modelled from the spec: single-pass template substitution. -/
def singlePassSubstitute (pairs : List (String × String)) (template : String) : String :=
  ⟨singlePassAux (pairs.map fun p => (p.1.data, p.2.data)) template.data.length template.data⟩

/-- Modelled from the spec: the assembly of §4.3 as a single
substitution pass with the same fragments. -/
def specSinglePassContract (code : Except String Node) (templateSolidity : String)
    (p5slot : List String) : String :=
  singlePassSubstitute (substitutionPairs code p5slot) templateSolidity

/-! ### Spec-side renderings used in claim statements -/

/-- The literal each trait's accessor returns when only default values
are available: `\x27\x27` for `asString`, `0` for `asInt`, `0` for
`asFloat` (JavaScript renders the number `0.0` as `0`). -/
def defaultReturnLiteral : TraitType → String
  | .asString => "\x27\x27"
  | .asInt => "0"
  | .asFloat => "0"

/-- One trait block of the generated fragment when every value is the
type-appropriate default. -/
def defaultTraitBlock (t : Trait) : String :=
  "    \"" ++ litKeyStr t.key ++ "\": \x7b\n" ++
  "      " ++ traitTypeName t.type ++ "() \x7b\n" ++
  "        return " ++ defaultReturnLiteral t.type ++ ";\n" ++
  "      \x7d\n" ++
  "    \x7d,\n"

/-- The `TRAIT_JS` line emitted for one collection: it references the
collection's address constant (`c.name`), its index constant
(`c.name ++ "_INDEX"`) and its token-id variable
(`"tokenId_" ++ _formatName c.name`). -/
def jsFieldLine (c : Collection) : String :=
  "string memory " ++ c.name ++ "_jsField = generateCollectionTraitJS(\"" ++ c.name ++
    "\", " ++ c.name ++ ", " ++ c.name ++ "_INDEX, tokenId_" ++ _formatName c.name ++ ");"

/-- The JavaScript number `3.5` (written in normal form so that kernel
evaluation does not need rational normalization). -/
def threePointFive : Rat := Rat.mk' 7 2 (by decide) (by decide)

/-- Concrete sketch: `var A = FormaCollection("0xAA"); function setup()
\x7b A.useToken(x); A.useToken(3.5); \x7d`. -/
def useTokenCexAst : Node :=
  .other [
    .varDeclr "A" (some (.call (.ident "FormaCollection") [.lit (.str "0xAA")] (some ⟨1, 10⟩)))
      (some ⟨1, 6⟩),
    .funcDecl "setup" [
      .call (.member (.ident "A") (some "useToken")) [.ident "x"] (some ⟨3, 2⟩),
      .call (.member (.ident "A") (some "useToken")) [.lit (.num threePointFive)]
        (some ⟨4, 2⟩)]]

/-- Concrete sketch: `var A = FormaCollection("0x1"); var A =
FormaCollection("0x2");` (legal JavaScript: `var` permits
redeclaration). -/
def duplicateNamesAst : Node :=
  .other [
    .varDeclr "A" (some (.call (.ident "FormaCollection") [.lit (.str "0x1")] (some ⟨1, 8⟩)))
      (some ⟨1, 4⟩),
    .varDeclr "A" (some (.call (.ident "FormaCollection") [.lit (.str "0x2")] (some ⟨2, 8⟩)))
      (some ⟨2, 4⟩)]

/-- Concrete sketch whose collection address literal is the text
`%CHUNKS%`: `var A = FormaCollection("%CHUNKS%");`. -/
def resubstAst : Node :=
  .other [
    .varDeclr "A" (some (.call (.ident "FormaCollection") [.lit (.str "%CHUNKS%")] (some ⟨1, 8⟩)))
      (some ⟨1, 4⟩)]

/-- A template containing the contracts placeholder and one `%CHUNKS%`
placeholder. -/
def resubstTemplate : String := "%COLLECTION_CONTRACTS%\n%CHUNKS%"

theorem collectionStep_components (st : NFTCodeAnalyzer) (n : Node) :
    (collectionStep st n).collections = st.collections ++ (collectionOf n).toList ∧
    (collectionStep st n).traits = st.traits ∧
    (collectionStep st n).tokenIndexes = st.tokenIndexes ∧
    (collectionStep st n).issues = st.issues ++ collIssuesOf n := by
  cases h : collectionOf n with
  | none => simp [collectionStep, h, collIssuesOf]
  | some c =>
    by_cases ha : c.address = none <;>
      simp [collectionStep, h, collIssuesOf, ha, addIssue]

theorem collFold_spec (ns : List Node) : ∀ st : NFTCodeAnalyzer,
    ((ns.foldl collectionStep st).collections = st.collections ++ ns.filterMap collectionOf) ∧
    ((ns.foldl collectionStep st).traits = st.traits) ∧
    ((ns.foldl collectionStep st).tokenIndexes = st.tokenIndexes) ∧
    ((ns.foldl collectionStep st).issues = st.issues ++ ns.flatMap collIssuesOf) := by
  induction ns with
  | nil => intro st; simp
  | cons n ns ih =>
    intro st
    obtain ⟨ihc, iht, ihk, ihi⟩ := ih (collectionStep st n)
    obtain ⟨sc, stt, stk, si⟩ := collectionStep_components st n
    rw [List.foldl_cons]
    refine ⟨?_, ?_, ?_, ?_⟩
    · rw [ihc, sc]
      cases h : collectionOf n <;> simp [h, List.filterMap_cons, List.append_assoc]
    · rw [iht, stt]
    · rw [ihk, stk]
    · rw [ihi, si, List.flatMap_cons, List.append_assoc]

theorem traitStep_components (st : NFTCodeAnalyzer) (n : Node) :
    (traitStep st n).collections = st.collections ∧
    (traitStep st n).tokenIndexes = st.tokenIndexes ∧
    (traitStep st n).traits = dedupAppend st.traits (extractTrait n).toList ∧
    (traitStep st n).issues = st.issues ++ (extractTrait n).toList.flatMap keyIssueOf := by
  cases h : extractTrait n with
  | none => simp [traitStep, h, dedupAppend]
  | some t =>
    by_cases hk : t.key = none <;>
      by_cases hd : isDuplicateTrait st.traits t <;>
        simp [traitStep, h, hk, hd, addIssue, dedupAppend, keyIssueOf]

theorem dedupAppend_append (l1 l2 : List Trait) : ∀ acc,
    dedupAppend acc (l1 ++ l2) = dedupAppend (dedupAppend acc l1) l2 := by
  induction l1 with
  | nil => intro acc; simp [dedupAppend]
  | cons t ts ih => intro acc; simp [dedupAppend, ih]

theorem traitFold_spec (ns : List Node) : ∀ st : NFTCodeAnalyzer,
    ((ns.foldl traitStep st).collections = st.collections) ∧
    ((ns.foldl traitStep st).tokenIndexes = st.tokenIndexes) ∧
    ((ns.foldl traitStep st).traits = dedupAppend st.traits (ns.filterMap extractTrait)) ∧
    ((ns.foldl traitStep st).issues =
      st.issues ++ (ns.filterMap extractTrait).flatMap keyIssueOf) := by
  induction ns with
  | nil => intro st; simp [dedupAppend]
  | cons n ns ih =>
    intro st
    obtain ⟨ihc, ihk, iht, ihi⟩ := ih (traitStep st n)
    obtain ⟨sc, sk, stt, si⟩ := traitStep_components st n
    rw [List.foldl_cons]
    refine ⟨?_, ?_, ?_, ?_⟩
    · rw [ihc, sc]
    · rw [ihk, sk]
    · rw [iht, stt]
      cases h : extractTrait n <;>
        simp [h, List.filterMap_cons, dedupAppend]
    · rw [ihi, si]
      cases h : extractTrait n <;>
        simp [h, List.filterMap_cons, List.flatMap_cons, List.append_assoc]

theorem tokenStep_components (st : NFTCodeAnalyzer) (n : Node) :
    (tokenStep st n).collections = st.collections ∧
    (tokenStep st n).traits = st.traits ∧
    (tokenStep st n).tokenIndexes = st.tokenIndexes ++ (tokenIndexFromCall n).toList ∧
    (tokenStep st n).issues = st.issues ++ tokenIssuesOf st.collections n := by
  cases h : useTokenParts n with
  | none => simp [tokenStep, h, tokenIndexFromCall, tokenIssuesOf]
  | some parts =>
    obtain ⟨cname, a, loc⟩ := parts
    by_cases hex : st.collections.any (fun c => decide (cname = some c.name)) <;>
      cases hid : extractTokenId a <;>
        simp [tokenStep, h, hex, hid, addIssue, tokenIndexFromCall, tokenIssuesOf]

theorem tokenFold_spec (ns : List Node) : ∀ st : NFTCodeAnalyzer,
    ((ns.foldl tokenStep st).collections = st.collections) ∧
    ((ns.foldl tokenStep st).traits = st.traits) ∧
    ((ns.foldl tokenStep st).tokenIndexes =
      st.tokenIndexes ++ ns.filterMap tokenIndexFromCall) ∧
    ((ns.foldl tokenStep st).issues =
      st.issues ++ ns.flatMap (tokenIssuesOf st.collections)) := by
  induction ns with
  | nil => intro st; simp
  | cons n ns ih =>
    intro st
    obtain ⟨ihc, iht, ihk, ihi⟩ := ih (tokenStep st n)
    obtain ⟨sc, stt, sk, si⟩ := tokenStep_components st n
    rw [List.foldl_cons]
    refine ⟨?_, ?_, ?_, ?_⟩
    · rw [ihc, sc]
    · rw [iht, stt]
    · rw [ihk, sk]
      cases h : tokenIndexFromCall n <;>
        simp [h, List.filterMap_cons, List.append_assoc]
    · rw [ihi, si, sc, List.flatMap_cons, List.append_assoc]

theorem traitValidateStep_components (st : NFTCodeAnalyzer) (t : Trait) :
    (traitValidateStep st t).collections = st.collections ∧
    (traitValidateStep st t).traits = st.traits ∧
    (traitValidateStep st t).tokenIndexes = st.tokenIndexes ∧
    (traitValidateStep st t).issues = st.issues ++ traitValidIssue st.collections t := by
  by_cases h : st.collections.any (fun c => decide (t.collection = some c.name)) <;>
    simp [traitValidateStep, traitValidIssue, h, addIssue]

theorem traitValidFold_spec (ts : List Trait) : ∀ st : NFTCodeAnalyzer,
    ((ts.foldl traitValidateStep st).collections = st.collections) ∧
    ((ts.foldl traitValidateStep st).traits = st.traits) ∧
    ((ts.foldl traitValidateStep st).tokenIndexes = st.tokenIndexes) ∧
    ((ts.foldl traitValidateStep st).issues =
      st.issues ++ ts.flatMap (traitValidIssue st.collections)) := by
  induction ts with
  | nil => intro st; simp
  | cons t ts ih =>
    intro st
    obtain ⟨ihc, iht, ihk, ihi⟩ := ih (traitValidateStep st t)
    obtain ⟨sc, stt, sk, si⟩ := traitValidateStep_components st t
    rw [List.foldl_cons]
    exact ⟨by rw [ihc, sc], by rw [iht, stt], by rw [ihk, sk],
      by rw [ihi, si, sc, List.flatMap_cons, List.append_assoc]⟩

theorem tokenValidateStep_components (st : NFTCodeAnalyzer) (ti : TokenIndex) :
    (tokenValidateStep st ti).collections = st.collections ∧
    (tokenValidateStep st ti).traits = st.traits ∧
    (tokenValidateStep st ti).tokenIndexes = st.tokenIndexes ∧
    (tokenValidateStep st ti).issues = st.issues ++ tokenValidIssue st.collections ti := by
  by_cases h : st.collections.any (fun c => decide (ti.collection = some c.name)) <;>
    simp [tokenValidateStep, tokenValidIssue, h, addIssue]

theorem tokenValidFold_spec (tis : List TokenIndex) : ∀ st : NFTCodeAnalyzer,
    ((tis.foldl tokenValidateStep st).collections = st.collections) ∧
    ((tis.foldl tokenValidateStep st).traits = st.traits) ∧
    ((tis.foldl tokenValidateStep st).tokenIndexes = st.tokenIndexes) ∧
    ((tis.foldl tokenValidateStep st).issues =
      st.issues ++ tis.flatMap (tokenValidIssue st.collections)) := by
  induction tis with
  | nil => intro st; simp
  | cons ti tis ih =>
    intro st
    obtain ⟨ihc, iht, ihk, ihi⟩ := ih (tokenValidateStep st ti)
    obtain ⟨sc, stt, sk, si⟩ := tokenValidateStep_components st ti
    rw [List.foldl_cons]
    exact ⟨by rw [ihc, sc], by rw [iht, stt], by rw [ihk, sk],
      by rw [ihi, si, sc, List.flatMap_cons, List.append_assoc]⟩

/-- Master characterization of a successful-parse analysis: each output
component of `analyzeCode` as a function of the walked node lists. -/
theorem analyzeCode_ok_spec (ast : Node) :
    (analyzeCode (.ok ast)).collections = (walkNodes ast).filterMap collectionOf ∧
    (analyzeCode (.ok ast)).traits =
      dedupAppend [] ((walkNodes ast).filterMap extractTrait) ∧
    (analyzeCode (.ok ast)).tokenIndexes = (setupWalk ast).filterMap tokenIndexFromCall ∧
    (analyzeCode (.ok ast)).issues =
      (walkNodes ast).flatMap collIssuesOf ++
      ((walkNodes ast).filterMap extractTrait).flatMap keyIssueOf ++
      (setupWalk ast).flatMap (tokenIssuesOf ((walkNodes ast).filterMap collectionOf)) ++
      (dedupAppend [] ((walkNodes ast).filterMap extractTrait)).flatMap
        (traitValidIssue ((walkNodes ast).filterMap collectionOf)) ++
      ((setupWalk ast).filterMap tokenIndexFromCall).flatMap
        (tokenValidIssue ((walkNodes ast).filterMap collectionOf)) := by
  have hana : analyzeCode (.ok ast) =
      resultOf (validateDataSt (extractTokenUsagesSt ast
        (extractTraitsSt ast (extractCollectionsSt ast resetState)))) := rfl
  obtain ⟨c1, t1, k1, i1⟩ := collFold_spec (walkNodes ast) resetState
  set st1 := extractCollectionsSt ast resetState with hst1
  obtain ⟨c2, k2, t2, i2⟩ := traitFold_spec (walkNodes ast) st1
  set st2 := extractTraitsSt ast st1 with hst2
  have hst2' : st2 = (walkNodes ast).foldl traitStep st1 := rfl
  have hc1 : st1.collections = (walkNodes ast).filterMap collectionOf := by
    simpa [resetState] using c1
  have ht1 : st1.traits = [] := by simpa [resetState] using t1
  have hk1 : st1.tokenIndexes = [] := by simpa [resetState] using k1
  have hi1 : st1.issues = (walkNodes ast).flatMap collIssuesOf := by
    simpa [resetState] using i1
  have hc2 : st2.collections = (walkNodes ast).filterMap collectionOf := by
    rw [hst2', c2, hc1]
  have ht2 : st2.traits = dedupAppend [] ((walkNodes ast).filterMap extractTrait) := by
    rw [hst2', t2, ht1]
  have hk2 : st2.tokenIndexes = [] := by rw [hst2', k2, hk1]
  have hi2 : st2.issues = (walkNodes ast).flatMap collIssuesOf ++
      ((walkNodes ast).filterMap extractTrait).flatMap keyIssueOf := by
    rw [hst2', i2, hi1]
  -- pass 3
  have hpass3 : ∀ st : NFTCodeAnalyzer,
      ((extractTokenUsagesSt ast st).collections = st.collections) ∧
      ((extractTokenUsagesSt ast st).traits = st.traits) ∧
      ((extractTokenUsagesSt ast st).tokenIndexes =
        st.tokenIndexes ++ (setupWalk ast).filterMap tokenIndexFromCall) ∧
      ((extractTokenUsagesSt ast st).issues =
        st.issues ++ (setupWalk ast).flatMap (tokenIssuesOf st.collections)) := by
    intro st
    cases hf : findSetup ast with
    | none => simp [extractTokenUsagesSt, hf, setupWalk]
    | some f =>
      obtain ⟨a, b, c, d⟩ := tokenFold_spec (walkNodes f) st
      exact ⟨by simpa [extractTokenUsagesSt, hf] using a,
        by simpa [extractTokenUsagesSt, hf] using b,
        by simpa [extractTokenUsagesSt, hf, setupWalk] using c,
        by simpa [extractTokenUsagesSt, hf, setupWalk] using d⟩
  obtain ⟨c3, t3, k3, i3⟩ := hpass3 st2
  set st3 := extractTokenUsagesSt ast st2 with hst3
  have hc3 : st3.collections = (walkNodes ast).filterMap collectionOf := by rw [c3, hc2]
  have ht3 : st3.traits = dedupAppend [] ((walkNodes ast).filterMap extractTrait) := by
    rw [t3, ht2]
  have hk3 : st3.tokenIndexes = (setupWalk ast).filterMap tokenIndexFromCall := by
    rw [k3, hk2]; simp
  have hi3 : st3.issues = (walkNodes ast).flatMap collIssuesOf ++
      ((walkNodes ast).filterMap extractTrait).flatMap keyIssueOf ++
      (setupWalk ast).flatMap (tokenIssuesOf ((walkNodes ast).filterMap collectionOf)) := by
    rw [i3, hi2, hc2, List.append_assoc]
  -- pass 4
  obtain ⟨c4a, t4a, k4a, i4a⟩ := traitValidFold_spec st3.traits st3
  set st4a := st3.traits.foldl traitValidateStep st3 with hst4a
  obtain ⟨c4, t4, k4, i4⟩ := tokenValidFold_spec st4a.tokenIndexes st4a
  have hvalid : validateDataSt st3 = st4a.tokenIndexes.foldl tokenValidateStep st4a := rfl
  rw [hana]
  have hfc : (validateDataSt st3).collections = (walkNodes ast).filterMap collectionOf := by
    rw [hvalid, c4, c4a, hc3]
  have hft : (validateDataSt st3).traits =
      dedupAppend [] ((walkNodes ast).filterMap extractTrait) := by
    rw [hvalid, t4, t4a, ht3]
  have hfk : (validateDataSt st3).tokenIndexes =
      (setupWalk ast).filterMap tokenIndexFromCall := by
    rw [hvalid, k4, k4a, hk3]
  have hfi : (validateDataSt st3).issues =
      (walkNodes ast).flatMap collIssuesOf ++
      ((walkNodes ast).filterMap extractTrait).flatMap keyIssueOf ++
      (setupWalk ast).flatMap (tokenIssuesOf ((walkNodes ast).filterMap collectionOf)) ++
      (dedupAppend [] ((walkNodes ast).filterMap extractTrait)).flatMap
        (traitValidIssue ((walkNodes ast).filterMap collectionOf)) ++
      ((setupWalk ast).filterMap tokenIndexFromCall).flatMap
        (tokenValidIssue ((walkNodes ast).filterMap collectionOf)) := by
    rw [hvalid, i4, i4a, k4a, c4a, hi3, ht3, hk3, hc3]
  exact ⟨hfc, hft, hfk, hfi⟩

theorem isDuplicateTrait_eq_any (acc : List Trait) (t : Trait) :
    isDuplicateTrait acc t = acc.any (fun x => decide (tripleOf x = tripleOf t)) := by
  simp [isDuplicateTrait, tripleOf, Prod.ext_iff, Bool.and_assoc]

theorem dedupAppend_filter (k : Option String × Option LitVal × TraitType) (raw : List Trait) :
    ∀ acc, (dedupAppend acc raw).filter (fun t => decide (tripleOf t = k)) =
      acc.filter (fun t => decide (tripleOf t = k)) ++
        (if acc.any (fun t => decide (tripleOf t = k)) then []
         else ((raw.filter (fun t => decide (tripleOf t = k))).take 1)) := by
  induction raw with
  | nil =>
    intro acc
    by_cases hacc : acc.any (fun t => decide (tripleOf t = k)) = true <;>
      simp [dedupAppend, hacc]
  | cons t ts ih =>
    intro acc
    by_cases hk : tripleOf t = k
    · by_cases hacc : acc.any (fun x => decide (tripleOf x = k)) = true
      · have hdup : isDuplicateTrait acc t = true := by
          rw [isDuplicateTrait_eq_any, hk]; exact hacc
        have hstep : dedupAppend acc (t :: ts) = dedupAppend acc ts := by
          simp [dedupAppend, hdup]
        rw [hstep, ih acc]
        simp [hacc]
      · rw [Bool.not_eq_true] at hacc
        have hdup : isDuplicateTrait acc t = false := by
          rw [isDuplicateTrait_eq_any, hk]; exact hacc
        have hstep : dedupAppend acc (t :: ts) = dedupAppend (acc ++ [t]) ts := by
          simp [dedupAppend, hdup]
        rw [hstep, ih (acc ++ [t])]
        simp [List.filter_append, List.any_append, List.filter_cons, hk, hacc]
    · by_cases hdup : isDuplicateTrait acc t = true
      · have hstep : dedupAppend acc (t :: ts) = dedupAppend acc ts := by
          simp [dedupAppend, hdup]
        rw [hstep, ih acc]
        simp [List.filter_cons, hk]
      · rw [Bool.not_eq_true] at hdup
        have hstep : dedupAppend acc (t :: ts) = dedupAppend (acc ++ [t]) ts := by
          simp [dedupAppend, hdup]
        rw [hstep, ih (acc ++ [t])]
        simp [List.filter_append, List.any_append, List.filter_cons, hk]

theorem collIssuesOf_warning (n : Node) : ∀ i ∈ collIssuesOf n, i.type = .warning := by
  intro i hi
  simp only [collIssuesOf] at hi
  split at hi
  · exact absurd hi (List.not_mem_nil _)
  · split at hi
    · rw [List.mem_singleton] at hi
      subst hi; rfl
    · exact absurd hi (List.not_mem_nil _)

theorem keyIssueOf_warning (t : Trait) : ∀ i ∈ keyIssueOf t, i.type = .warning := by
  intro i hi
  simp only [keyIssueOf] at hi
  split at hi
  · rw [List.mem_singleton] at hi
    subst hi; rfl
  · exact absurd hi (List.not_mem_nil _)

theorem tokenIssuesOf_warning (cs : List Collection) (n : Node) :
    ∀ i ∈ tokenIssuesOf cs n, i.type = .warning := by
  intro i hi
  simp only [tokenIssuesOf] at hi
  split at hi
  · exact absurd hi (List.not_mem_nil _)
  · rw [List.mem_append] at hi
    rcases hi with hi | hi
    · split at hi
      · exact absurd hi (List.not_mem_nil _)
      · rw [List.mem_singleton] at hi
        subst hi; rfl
    · split at hi
      · rw [List.mem_singleton] at hi
        subst hi; rfl
      · exact absurd hi (List.not_mem_nil _)

theorem traitValidIssue_warning (cs : List Collection) (t : Trait) :
    ∀ i ∈ traitValidIssue cs t, i.type = .warning := by
  intro i hi
  simp only [traitValidIssue] at hi
  split at hi
  · exact absurd hi (List.not_mem_nil _)
  · rw [List.mem_singleton] at hi
    subst hi; rfl

theorem tokenValidIssue_warning (cs : List Collection) (ti : TokenIndex) :
    ∀ i ∈ tokenValidIssue cs ti, i.type = .warning := by
  intro i hi
  simp only [tokenValidIssue] at hi
  split at hi
  · exact absurd hi (List.not_mem_nil _)
  · rw [List.mem_singleton] at hi
    subst hi; rfl

/-! ### Claim theorems -/

/-- C4: `analyze` is total (the embedding is a total function of the
parse outcome); on a parse failure it returns exactly one error-severity
issue carrying the wrapped parse message over otherwise-empty state (no
collections, traits, data or token indexes); and on a successful parse
every issue it ever reports is warning-severity, so parse failure is the
only analyzer-level error. -/
theorem analyze_parse_failure_isolated :
    (∀ e : String, analyzeCode (.error e) =
      ⟨[], [], [], [⟨.error, "Analysis failed: Failed to parse code: " ++ e, none⟩], []⟩) ∧
    (∀ ast : Node, (analyzeCode (.ok ast)).issues.all (fun i => i.type == .warning) = true) := by
  constructor
  · intro e; rfl
  · intro ast
    rw [List.all_eq_true]
    intro i hi
    rw [(analyzeCode_ok_spec ast).2.2.2] at hi
    simp only [List.mem_append] at hi
    have hw : i.type = IssueType.warning := by
      rcases hi with ((((hi | hi) | hi) | hi) | hi)
      · obtain ⟨n, _, hin⟩ := List.mem_flatMap.mp hi
        exact collIssuesOf_warning n i hin
      · obtain ⟨t, _, hit⟩ := List.mem_flatMap.mp hi
        exact keyIssueOf_warning t i hit
      · obtain ⟨n, _, hin⟩ := List.mem_flatMap.mp hi
        exact tokenIssuesOf_warning _ n i hin
      · obtain ⟨t, _, hit⟩ := List.mem_flatMap.mp hi
        exact traitValidIssue_warning _ t i hit
      · obtain ⟨ti, _, hit⟩ := List.mem_flatMap.mp hi
        exact tokenValidIssue_warning _ ti i hit
    rw [hw]
    rfl

/-- C9: analysis results do not depend on the analyzer instance's
previous accumulator state (reset discards it), so any two analyzer
states — in particular a fresh one and one left by a first call —
produce structurally identical results on identical input. -/
theorem analyze_deterministic :
    (∀ (a b : NFTCodeAnalyzer) (input : Except String Node),
      (a.analyzeSt input).2 = (b.analyzeSt input).2) ∧
    (∀ (a : NFTCodeAnalyzer) (input : Except String Node),
      (((a.analyzeSt input).1).analyzeSt input).2 = (a.analyzeSt input).2) := by
  constructor
  · intro a b input; cases input <;> rfl
  · intro a input; cases input <;> rfl

/-- C3 amended: every `FormaCollection` declarator registers exactly one
Collection, in walk order; names are not deduplicated, so distinct
declarations sharing a variable name yield distinct entries with the
same name. -/
theorem collections_once_per_declaration (ast : Node) :
    (analyzeCode (.ok ast)).collections = (walkNodes ast).filterMap collectionOf :=
  (analyzeCode_ok_spec ast).1

/-- C3 counterexample: `var A = FormaCollection("0x1"); var A =
FormaCollection("0x2");` produces two Collection entries that share the
name `A`, refuting uniqueness of collection names within one analysis. -/
theorem collection_names_not_unique :
    (analyzeCode (.ok duplicateNamesAst)).collections.map Collection.name = ["A", "A"] ∧
    ¬ ((analyzeCode (.ok duplicateNamesAst)).collections.map Collection.name).Nodup := by
  constructor
  · decide
  · decide

/-- C8: for every sketch AST and every (collection, key, type) triple,
the traits of the analysis restricted to that triple are exactly the
first raw occurrence of the triple (in walk order): one Trait if the
triple is declared at all, and the first declaration's record at that —
later exact duplicates are suppressed. -/
theorem trait_dedup_first_wins (ast : Node)
    (k : Option String × Option LitVal × TraitType) :
    ((analyzeCode (.ok ast)).traits).filter (fun t => decide (tripleOf t = k)) =
      (((walkNodes ast).filterMap extractTrait).filter
        (fun t => decide (tripleOf t = k))).take 1 := by
  rw [(analyzeCode_ok_spec ast).2.1, dedupAppend_filter k _ []]
  simp

/-- C1 amended: a `useToken` call inside the setup function whose
argument is a literal number — integer or not — records a TokenIndex; a
`useToken` call (with at least one argument) whose argument is not a
numeric literal records no TokenIndex but adds a non-numeric-token-ID
warning issue; and no call outside the setup walk ever contributes a
TokenIndex, since the output equals the filter-map over the setup walk
alone. -/
theorem useToken_discovery (ast : Node) :
    ((analyzeCode (.ok ast)).tokenIndexes = (setupWalk ast).filterMap tokenIndexFromCall) ∧
    (∀ n cname a loc, n ∈ setupWalk ast → useTokenParts n = some (cname, a, loc) →
      extractTokenId a = none →
      nonNumericWarning cname loc ∈ (analyzeCode (.ok ast)).issues) := by
  refine ⟨(analyzeCode_ok_spec ast).2.2.1, ?_⟩
  intro n cname a loc hn hparts hid
  rw [(analyzeCode_ok_spec ast).2.2.2]
  have hmem : nonNumericWarning cname loc ∈
      tokenIssuesOf ((walkNodes ast).filterMap collectionOf) n := by
    simp only [tokenIssuesOf, hparts, hid]
    exact List.mem_append_right _ (List.mem_singleton_self _)
  have hbig : nonNumericWarning cname loc ∈
      (setupWalk ast).flatMap (tokenIssuesOf ((walkNodes ast).filterMap collectionOf)) :=
    List.mem_flatMap.mpr ⟨n, hn, hmem⟩
  simp only [List.mem_append]
  exact Or.inl (Or.inl (Or.inr hbig))

/-- C1 counterexample: in `setup`, `A.useToken(x)` (non-literal
argument) is dropped but DOES add a warning issue, and `A.useToken(3.5)`
(literal non-integer) DOES record a TokenIndex with tokenId 3.5 —
refuting both "dropped with no issue" and "non-integer arguments never
produce a TokenIndex". -/
theorem useToken_nonliteral_warns_nonint_records :
    (analyzeCode (.ok useTokenCexAst)).tokenIndexes = [⟨some "A", threePointFive⟩] ∧
    threePointFive.den ≠ 1 ∧
    (analyzeCode (.ok useTokenCexAst)).issues =
      [nonNumericWarning (some "A") (some ⟨3, 2⟩)] := by
  refine ⟨by decide, by decide, by decide⟩

/-- C1 witness: the amended theorem applied at the concrete sketch
`var A = FormaCollection("0xAA"); function setup() ... A.useToken(x) ...`. -/
theorem useToken_discovery_witness :
    nonNumericWarning (some "A") (some ⟨3, 2⟩) ∈
      (analyzeCode (.ok useTokenCexAst)).issues := by
  have hsw : setupWalk useTokenCexAst =
      [.ident "A", .member (.ident "A") (some "useToken"), .ident "x",
       .call (.member (.ident "A") (some "useToken")) [.ident "x"] (some ⟨3, 2⟩),
       .ident "A", .member (.ident "A") (some "useToken"), .lit (.num threePointFive),
       .call (.member (.ident "A") (some "useToken")) [.lit (.num threePointFive)] (some ⟨4, 2⟩),
       .funcDecl "setup"
         [.call (.member (.ident "A") (some "useToken")) [.ident "x"] (some ⟨3, 2⟩),
          .call (.member (.ident "A") (some "useToken")) [.lit (.num threePointFive)] (some ⟨4, 2⟩)]] :=
    rfl
  refine (useToken_discovery useTokenCexAst).2
    (.call (.member (.ident "A") (some "useToken")) [.ident "x"] (some ⟨3, 2⟩))
    (some "A") (.ident "x") (some ⟨3, 2⟩) ?_ rfl rfl
  rw [hsw]
  exact List.mem_cons_of_mem _ (List.mem_cons_of_mem _ (List.mem_cons_of_mem _
    (List.mem_cons_self _ _)))

theorem escQuotePass_append (x y : List Char) :
    escQuotePass (x ++ y) = escQuotePass x ++ escQuotePass y := by
  induction x with
  | nil => rfl
  | cons c cs ih => simp [escQuotePass, ih]

theorem escNewlinePass_append (x y : List Char) :
    escNewlinePass (x ++ y) = escNewlinePass x ++ escNewlinePass y := by
  induction x with
  | nil => rfl
  | cons c cs ih => simp [escNewlinePass, ih]

theorem escHead (c : Char) :
    escNewlinePass (escQuotePass (if c = '\\' then ['\\', '\\'] else [c])) = escChar c := by
  by_cases h1 : c = '\\'
  · subst h1; rfl
  · by_cases h2 : c = '"'
    · subst h2; rfl
    · by_cases h3 : c = '\n'
      · subst h3; rfl
      · simp [escQuotePass, escNewlinePass, escChar, h1, h2, h3]

theorem escapeString_eq_flatMap (l : List Char) :
    escNewlinePass (escQuotePass (escBackslashPass l)) = l.flatMap escChar := by
  induction l with
  | nil => rfl
  | cons c cs ih =>
    show escNewlinePass (escQuotePass
      ((if c = '\\' then ['\\', '\\'] else [c]) ++ escBackslashPass cs)) = _
    rw [escQuotePass_append, escNewlinePass_append, ih, escHead]
    rfl

theorem decodeBody_escaped (l : List Char) :
    decodeBody (l.flatMap escChar ++ ['"']) = some l := by
  induction l with
  | nil => rfl
  | cons c cs ih =>
    obtain ⟨d, r, hdr⟩ : ∃ d r, cs.flatMap escChar ++ ['"'] = d :: r := by
      cases h : cs.flatMap escChar ++ ['"'] with
      | nil => exact absurd h (by simp)
      | cons d r => exact ⟨d, r, rfl⟩
    by_cases h1 : c = '\\'
    · subst h1
      show decodeBody ('\\' :: '\\' :: (cs.flatMap escChar ++ ['"'])) = some ('\\' :: cs)
      rw [show decodeBody ('\\' :: '\\' :: (cs.flatMap escChar ++ ['"'])) =
        (decodeBody (cs.flatMap escChar ++ ['"'])).map (fun l => '\\' :: l) from rfl, ih]
      rfl
    · by_cases h2 : c = '"'
      · subst h2
        show decodeBody ('\\' :: '"' :: (cs.flatMap escChar ++ ['"'])) = some ('"' :: cs)
        rw [show decodeBody ('\\' :: '"' :: (cs.flatMap escChar ++ ['"'])) =
          (decodeBody (cs.flatMap escChar ++ ['"'])).map (fun l => '"' :: l) from rfl, ih]
        rfl
      · by_cases h3 : c = '\n'
        · subst h3
          show decodeBody ('\\' :: 'n' :: (cs.flatMap escChar ++ ['"'])) = some ('\n' :: cs)
          rw [show decodeBody ('\\' :: 'n' :: (cs.flatMap escChar ++ ['"'])) =
            (decodeBody (cs.flatMap escChar ++ ['"'])).map (fun l => '\n' :: l) from rfl, ih]
          rfl
        · have hesc : escChar c = [c] := by simp [escChar, h1, h2, h3]
          have hform : (c :: cs).flatMap escChar ++ ['"'] = c :: d :: r := by
            simp only [List.flatMap_cons, hesc, List.append_assoc, List.cons_append,
              List.nil_append, hdr]
          rw [hform]
          simp only [decodeBody, h1, h2, h3, if_false]
          rw [← hdr, ih]
          rfl

/-- C6: `_escapeString` is the three global replacements — backslash
first, then double quote, then newline — which together amount to one
independent per-character escape map; and embedding the escaped text in
a quoted literal and decoding it back (decoder modelled from the spec)
reproduces the original text exactly. -/
theorem escape_order_and_roundtrip :
    (∀ s : String, _escapeString s = ⟨s.data.flatMap escChar⟩) ∧
    (∀ s : String, decodeStringLiteral ("\"" ++ _escapeString s ++ "\"") = some s) := by
  have hesc : ∀ s : String, _escapeString s = ⟨s.data.flatMap escChar⟩ := fun s =>
    congrArg String.mk (escapeString_eq_flatMap s.data)
  refine ⟨hesc, fun s => ?_⟩
  have hdata : ("\"" ++ _escapeString s ++ "\"").data =
      '"' :: (s.data.flatMap escChar ++ ['"']) := by
    rw [hesc s]
    simp [String.data_append]
  simp only [decodeStringLiteral, hdata, decodeBody_escaped, Option.map_some']

/-- C7: trait-value coercion — formatting a value whose string form has
no leading numeric token (`parseInt`/`parseFloat` return `NaN`, modelled
as `none`) yields `0` for `asInt` and `0.0` (the number `0`) for
`asFloat`; and `asString` formatting is the total string cast, defined
for every metadata value. -/
theorem formatValue_coercion (v : Json) :
    (jsParseInt (jsToString v) = none → formatValue v .asInt = .n 0) ∧
    (jsParseFloat (jsToString v) = none → formatValue v .asFloat = .n 0) ∧
    formatValue v .asString = .s (jsToString v) := by
  refine ⟨fun h => ?_, fun h => ?_, rfl⟩ <;> simp [formatValue, h]

/-- C7 witness: the coercions evaluated at the non-numeric value
`"abc"`. -/
theorem formatValue_coercion_witness :
    jsParseInt (jsToString (.str "abc")) = none ∧
    jsParseFloat (jsToString (.str "abc")) = none ∧
    formatValue (.str "abc") .asInt = .n 0 ∧
    formatValue (.str "abc") .asFloat = .n 0 ∧
    formatValue (.str "abc") .asString = .s "abc" :=
  ⟨by decide, by decide,
   (formatValue_coercion (.str "abc")).1 (by decide),
   (formatValue_coercion (.str "abc")).2.1 (by decide),
   (formatValue_coercion (.str "abc")).2.2⟩

theorem jsNumToString_zero : jsNumToString 0 = "0" := by decide

theorem traitBlock_nil (t : Trait) : traitBlock [] t = defaultTraitBlock t := by
  obtain ⟨coll, key, tt, loc⟩ := t
  cases tt <;>
    simp [traitBlock, defaultTraitBlock, tvGet, getDefaultValue, jvalToString,
      defaultReturnLiteral, escSingleQuotes, escSingleQuotesL, traitTypeName,
      jsNumToString_zero]

/-- C5: per-collection resolution uses the first token index when the
list is non-empty and `1` otherwise; and with no address it fails
immediately (`success = false`, error "Collection has no address") while
still emitting the complete code fragment in which every declared trait
returns its type-appropriate default: `\x27\x27` for `asString`, `0` for
`asInt`/`asFloat`. -/
theorem resolve_tokenid_and_no_address (fetch : MetadataResult) (c : TraitData) :
    ((generateFormaCollectionCode fetch c).tokenId = c.tokenIndexes.head?.getD 1) ∧
    (c.address = none →
      (generateFormaCollectionCode fetch c).success = false ∧
      (generateFormaCollectionCode fetch c).error = some "Collection has no address" ∧
      (generateFormaCollectionCode fetch c).code =
        "const " ++ showName c.collection ++ " = \x7b\n" ++
        "  // Metadata source: " ++ "unknown" ++ "\n" ++
        "  traits: \x7b\n" ++
        String.join (c.traits.map defaultTraitBlock) ++
        "  \x7d,\n" ++
        "  metadata(key) \x7b\n" ++
        "    return this.traits[key];\n" ++
        "  \x7d,\n" ++
        "  useToken(tokenId) \x7b\n" ++
        "    console.log(\x27Using token\x27, tokenId);\n" ++
        "    return this;\n" ++
        "  \x7d\n" ++
        "\x7d;\n") := by
  constructor
  · cases h : c.tokenIndexes <;> simp [generateFormaCollectionCode, h]
  · intro h
    have hlit : litTruthyOpt c.address = false := by rw [h]; rfl
    have hfun : traitBlock [] = defaultTraitBlock := funext traitBlock_nil
    refine ⟨?_, ?_, ?_⟩ <;>
      simp [generateFormaCollectionCode, hlit, strTruthy, generateCode, sourceTypeName,
        hfun]

/-- C5 witness: a collection named `A` with one `asString` trait, no
address and no token usages. -/
theorem resolve_tokenid_and_no_address_witness :
    (generateFormaCollectionCode ⟨none, .unknown, none, false, none⟩
      ⟨some "A", none, [⟨some "A", some (.str "Color"), .asString, none⟩], []⟩).tokenId = 1 ∧
    (generateFormaCollectionCode ⟨none, .unknown, none, false, none⟩
      ⟨some "A", none, [⟨some "A", some (.str "Color"), .asString, none⟩], []⟩).success
      = false ∧
    (generateFormaCollectionCode ⟨none, .unknown, none, false, none⟩
      ⟨some "A", none, [⟨some "A", some (.str "Color"), .asString, none⟩], []⟩).error
      = some "Collection has no address" := by
  have h := resolve_tokenid_and_no_address ⟨none, .unknown, none, false, none⟩
    ⟨some "A", none, [⟨some "A", some (.str "Color"), .asString, none⟩], []⟩
  exact ⟨by rw [h.1]; rfl, (h.2 rfl).1, (h.2 rfl).2.1⟩

theorem isPrefixOf_self_append (p t : List Char) : p.isPrefixOf (p ++ t) = true := by
  induction p with
  | nil => cases t <;> rfl
  | cons c cs ih => simp [List.isPrefixOf, ih]

theorem countOcc_ge_one (pat : List Char) (hp : pat ≠ []) (a b : List Char) :
    1 ≤ countOcc pat (a ++ pat ++ b) := by
  induction a with
  | nil =>
    cases pat with
    | nil => exact absurd rfl hp
    | cons p ps =>
      have h1 : ([] : List Char) ++ (p :: ps) ++ b = p :: (ps ++ b) := rfl
      rw [h1, countOcc]
      have h2 : (p :: ps).isPrefixOf (p :: (ps ++ b)) = true := isPrefixOf_self_append (p :: ps) b
      rw [h2]
      simp
  | cons x a' ih =>
    have h1 : (x :: a') ++ pat ++ b = x :: (a' ++ pat ++ b) := rfl
    rw [h1, countOcc]
    split <;> omega

theorem replaceFirst_unique (pat repl : List Char) (hp : pat ≠ []) :
    ∀ a b, countOcc pat (a ++ pat ++ b) = 1 →
      replaceFirstL pat repl (a ++ pat ++ b) = a ++ repl ++ b := by
  intro a
  induction a with
  | nil =>
    intro b hcount
    cases pat with
    | nil => exact absurd rfl hp
    | cons p ps =>
      have h1 : ([] : List Char) ++ (p :: ps) ++ b = p :: (ps ++ b) := rfl
      rw [h1, replaceFirstL]
      have h2 : (p :: ps).isPrefixOf (p :: (ps ++ b)) = true := isPrefixOf_self_append (p :: ps) b
      simp [h2, List.drop_left]
  | cons x a' ih =>
    intro b hcount
    have h1 : (x :: a') ++ pat ++ b = x :: (a' ++ pat ++ b) := rfl
    rw [h1] at hcount ⊢
    by_cases hpre : pat.isPrefixOf (x :: (a' ++ pat ++ b)) = true
    · exfalso
      have hge := countOcc_ge_one pat hp a' b
      rw [countOcc, if_pos hpre] at hcount
      omega
    · rw [Bool.not_eq_true] at hpre
      have hif : ¬ (pat.isPrefixOf (x :: (a' ++ pat ++ b)) = true) := by
        rw [hpre]; exact Bool.false_ne_true
      rw [countOcc, if_neg hif] at hcount
      have hcount' : countOcc pat (a' ++ pat ++ b) = 1 := by omega
      rw [replaceFirstL, if_neg hif, ih b hcount']
      simp

/-- C2 amended: template assembly is a chain of thirteen sequential
first-occurrence find/replace steps over the whole text, in a fixed
order — not a single linear scan; each step with a placeholder occurring
exactly once in the current text replaces exactly that occurrence (so a
placeholder token introduced by an earlier-substituted fragment can
become the first occurrence and be re-substituted by a later step). -/
theorem template_substitution_sequential :
    (∀ (code : Except String Node) (templateSolidity : String) (p5slot : List String),
      generateSolidityContract code templateSolidity p5slot =
        (substitutionPairs code p5slot).foldl (fun acc p => jsReplace acc p.1 p.2)
          templateSolidity) ∧
    (∀ (pat repl a b : List Char), pat ≠ [] → countOcc pat (a ++ pat ++ b) = 1 →
      replaceFirstL pat repl (a ++ pat ++ b) = a ++ repl ++ b) :=
  ⟨fun _ _ _ => rfl,
   fun pat repl a b hp h => replaceFirst_unique pat repl hp a b h⟩

/-- C2 witness: the unique-occurrence replacement applied at a concrete
pattern. -/
theorem template_substitution_sequential_witness :
    countOcc "%X%".data ("ab".data ++ "%X%".data ++ "cd".data) = 1 ∧
    replaceFirstL "%X%".data "R".data ("ab".data ++ "%X%".data ++ "cd".data) =
      "ab".data ++ "R".data ++ "cd".data :=
  ⟨by decide,
   template_substitution_sequential.2 "%X%".data "R".data "ab".data "cd".data
     (by decide) (by decide)⟩

/-- C2 counterexample: for the sketch `var A =
FormaCollection("%CHUNKS%");` and the template
`%COLLECTION_CONTRACTS%\n%CHUNKS%` with no chunks, the chained
`.replace` assembly substitutes the `%CHUNKS%` text that the
address fragment introduced (re-substitution into substituted content)
and leaves the template's own `%CHUNKS%` placeholder unreplaced — its
output differs from the single-pass substitution of the very same
fragment map. -/
theorem template_resubstitution_cex :
    generateSolidityContract (.ok resubstAst) resubstTemplate [] =
      "address private constant A = \n\nuint256 private constant CHUNK_COUNT = 0;;\n%CHUNKS%" ∧
    specSinglePassContract (.ok resubstAst) resubstTemplate [] =
      "address private constant A = %CHUNKS%;\n\n\nuint256 private constant CHUNK_COUNT = 0;" ∧
    generateSolidityContract (.ok resubstAst) resubstTemplate [] ≠
      specSinglePassContract (.ok resubstAst) resubstTemplate [] := by
  refine ⟨by decide, by decide, by decide⟩

/-- C10: the `TRAIT_JS` and `TRAIT_BASE64` fragment generators map over
all collections of the model with no address filtering — each
unaddressed collection still gets a `jsField` line referencing its
address constant, its `_INDEX` constant and its `tokenId_<name>`
variable — while `_filterValidCollections` (used by the declaring
fragments) drops every collection whose address is absent, as the
concrete unaddressed collection `A` shows: its declaring fragments are
all empty while both `TRAIT_JS` and `TRAIT_BASE64` still reference its
identifiers. -/
theorem jsField_fragments_include_unaddressed :
    (∀ cs : List Collection,
      generateSolidityJsField cs = String.intercalate "\n" (cs.map jsFieldLine) ∧
      generateSolidityBase64EncodedField cs =
        "\n        string memory allTraits = string(abi.encodePacked(" ++
          String.intercalate ", " (cs.map fun c => c.name ++ "_jsField") ++ "));\n    " ∧
      _filterValidCollections cs = cs.filter fun c => litTruthyOpt c.address) ∧
    (∀ (cs : List Collection) (c : Collection), c ∈ cs → c.address = none →
      c ∉ _filterValidCollections cs) ∧
    (generateSolidityJsField [⟨"A", none, none⟩] =
      "string memory A_jsField = generateCollectionTraitJS(\"A\", A, A_INDEX, tokenId_A);" ∧
     generateCollectionAddresses [⟨"A", none, none⟩] = "" ∧
     generateCollectionIndexes [⟨"A", none, none⟩] = "" ∧
     generateTokenIdMapping [⟨"A", none, none⟩] = "" ∧
     generateSolidityBase64EncodedField [⟨"A", none, none⟩] =
       "\n        string memory allTraits = string(abi.encodePacked(A_jsField));\n    ") := by
  refine ⟨fun cs => ⟨rfl, rfl, rfl⟩, ?_, by decide, by decide, by decide, by decide, by decide⟩
  intro cs c hc haddr hmem
  rw [_filterValidCollections, List.mem_filter, haddr] at hmem
  exact absurd hmem.2 (by decide)

/-- C10 witness: the filtered-fragment exclusion applied at the concrete
unaddressed collection. -/
theorem jsField_fragments_include_unaddressed_witness :
    (⟨"A", none, none⟩ : Collection) ∉ _filterValidCollections [⟨"A", none, none⟩] :=
  jsField_fragments_include_unaddressed.2.1 [⟨"A", none, none⟩] ⟨"A", none, none⟩
    (List.mem_singleton_self _) rfl
